import Mathlib

/-!
Shallow embedding of the evotrack backend (organizational-management REST
service): membership registry, department hierarchy, invitation workflow,
and the cursor-pagination stored function, together with theorems checking
the specification's claims against this embedding.

Identifiers (UUIDs in the source) are modelled as `Nat`; timestamps as `Nat`.
-/

namespace EvoTrack

/-- Roles for users within an organization
(`OrganizationRole` in `app/modules/organizations/models.py`). -/
inductive OrganizationRole where
  | owner
  | admin
  | manager
  | employee
  deriving DecidableEq, Repr

/-- Parsing a role string, `OrganizationRole(value)` on the lowercased input
(raises `ValueError` on anything else, modelled as `none`). -/
def OrganizationRole.ofString : String → Option OrganizationRole
  | "owner" => some .owner
  | "admin" => some .admin
  | "manager" => some .manager
  | "employee" => some .employee
  | _ => none

/-- Status of an invitation (`InvitationStatus` in
`app/modules/organizations/models.py`). -/
inductive InvitationStatus where
  | pending
  | accepted
  | expired
  | cancelled
  deriving DecidableEq, Repr

/-- User lifecycle status (`UserStatus` in `app/modules/users/models.py`). -/
inductive UserStatus where
  | pendingActivation
  | active
  | inactive
  deriving DecidableEq, Repr

/-- The typed exceptions of `app/shared/exceptions.py`; each carries the
message passed at the raise site. -/
inductive Exc where
  | notFound (resource : String)
  | alreadyExists (resource : String)
  | unauthorized (msg : String)
  | forbidden (msg : String)
  | validation (msg : String)
  | businessLogic (msg : String)
  | database (msg : String)
  deriving DecidableEq, Repr

/-- HTTP status attached to each exception class in
`app/shared/exceptions.py`; the handler in `app/main.py` returns exactly
`exc.status_code`. -/
def Exc.statusCode : Exc → Nat
  | .notFound _ => 404
  | .alreadyExists _ => 409
  | .unauthorized _ => 401
  | .forbidden _ => 403
  | .validation _ => 422
  | .businessLogic _ => 400
  | .database _ => 500

/-- A row of `user_organizations` (`UserOrganization` model). -/
structure UserOrganization where
  userId : Nat
  organizationId : Nat
  role : OrganizationRole
  isActive : Bool
  deriving DecidableEq, Repr

/-- A row of `users`, restricted to the fields the embedded operations
touch (`User` model in `app/modules/users/models.py`). -/
structure UserRec where
  id : Nat
  email : String
  status : UserStatus
  departmentId : Option Nat
  deriving DecidableEq, Repr

/-- A row of `departments` (`Department` model in
`app/modules/departments/models.py`). -/
structure Department where
  id : Nat
  organizationId : Nat
  parentDepartmentId : Option Nat
  departmentHeadId : Option Nat
  name : String
  description : Option String
  budget : Option Int
  isActive : Bool
  deriving DecidableEq, Repr

/-- A row of `teams`, restricted to the fields relevant here. -/
structure Team where
  id : Nat
  departmentId : Nat
  leadId : Option Nat
  deriving DecidableEq, Repr

/-- Replace the first element satisfying `p` by its image under `f`;
this is how an ORM mutation of the object returned by `.first()` acts on
the underlying row list. -/
def updateFirst {α : Type} (p : α → Bool) (f : α → α) : List α → List α
  | [] => []
  | x :: xs => if p x then f x :: xs else x :: updateFirst p f xs

/-- `UserOrganizationRepository.get_user_role`: role of the first active
membership row for (user, organization), if any. -/
def get_user_role (ms : List UserOrganization) (userId orgId : Nat) :
    Option OrganizationRole :=
  (ms.find? fun m =>
    decide (m.userId = userId ∧ m.organizationId = orgId ∧ m.isActive = true)).map
    (·.role)

/-- `UserOrganizationRepository.is_member`: count of active membership rows
for (user, organization) is positive. -/
def is_member (ms : List UserOrganization) (userId orgId : Nat) : Bool :=
  decide (0 < ms.countP fun m =>
    decide (m.userId = userId ∧ m.organizationId = orgId ∧ m.isActive = true))

/-- `DepartmentService._check_permissions` with the default required roles
`[OWNER, ADMIN]`: true exactly when no `ForbiddenException` is raised. -/
def check_permissions (ms : List UserOrganization) (userId orgId : Nat) : Bool :=
  match get_user_role ms userId orgId with
  | none => false
  | some r => decide (r = .owner ∨ r = .admin)

/-- `self.db.query(Department).filter(Department.id == dept_id).first()`. -/
def findDept (depts : List Department) (i : Nat) : Option Department :=
  depts.find? fun d => decide (d.id = i)

/-- `DepartmentRepository.has_active_sub_departments`. -/
def has_active_sub_departments (depts : List Department) (deptId : Nat) : Bool :=
  decide (0 < depts.countP fun d =>
    decide (d.parentDepartmentId = some deptId ∧ d.isActive = true))

/-- The `while` loop of `DepartmentRepository.validate_no_cycle`: walk the
ancestor chain starting at `current` with the `visited` guard.  The loop
terminates because each iteration pushes a fresh id that was looked up in
the table, so `depts.length + 1` units of fuel can never run out; out of
fuel we return `false` (a dead branch, see `validateNoCycleLoop_spec`). -/
def validateNoCycleLoop (depts : List Department) (deptId : Nat) :
    Nat → List Nat → Nat → Bool
  | _, _, 0 => false
  | current, visited, fuel + 1 =>
    if current ∈ visited ∨ current = deptId then false
    else
      match findDept depts current with
      | none => true
      | some parent =>
        match parent.parentDepartmentId with
        | none => true
        | some nxt => validateNoCycleLoop depts deptId nxt (current :: visited) fuel

/-- `DepartmentRepository.validate_no_cycle`. -/
def validate_no_cycle (depts : List Department) (deptId : Nat)
    (parentId : Option Nat) : Bool :=
  match parentId with
  | none => true
  | some pid =>
    if deptId = pid then false
    else validateNoCycleLoop depts deptId pid [] (depts.length + 1)

/-- Parent pointer of the department with id `i`, as the walk in
`validate_no_cycle` reads it from the table. -/
def parentOf (depts : List Department) (i : Nat) : Option Nat :=
  (findDept depts i).bind (·.parentDepartmentId)

/-- Walking the parent chain from `i` reaches `j` (the specification's
"walk P's ancestor chain (P, P.parent, P.parent.parent, ...)"). -/
inductive Reaches (depts : List Department) : Nat → Nat → Prop
  | refl (i : Nat) : Reaches depts i i
  | step {i p j : Nat} : parentOf depts i = some p → Reaches depts p j →
      Reaches depts i j

/-- A measure certifying that the stored parent pointers are acyclic:
every department's parent has strictly smaller measure.  This is the
standing well-formedness invariant of the department forest. -/
def Measured (depts : List Department) (m : Nat → Nat) : Prop :=
  ∀ d ∈ depts, ∀ p, d.parentDepartmentId = some p → m p < m d.id

/-- `DepartmentUpdate` schema (`app/modules/departments/schemas.py`): every
field optional.  The outer `Option` is pydantic set-ness (`exclude_unset`);
the inner `Option` on nullable fields is an explicit null. -/
structure DepartmentUpdate where
  name : Option String := none
  description : Option (Option String) := none
  parentDepartmentId : Option (Option Nat) := none
  departmentHeadId : Option (Option Nat) := none
  budget : Option (Option Int) := none
  isActive : Option Bool := none
  deriving DecidableEq, Repr

/-- The `setattr` loop over `dept_data.model_dump(exclude_unset=True)` in
`DepartmentService.update_department`. -/
def applyDeptUpdate (d : Department) (u : DepartmentUpdate) : Department :=
  { d with
    name := u.name.getD d.name
    description := u.description.getD d.description
    parentDepartmentId := u.parentDepartmentId.getD d.parentDepartmentId
    departmentHeadId := u.departmentHeadId.getD d.departmentHeadId
    budget := u.budget.getD d.budget
    isActive := u.isActive.getD d.isActive }

/-- The database state the department service reads and writes. -/
structure DeptState where
  departments : List Department
  memberships : List UserOrganization
  users : List UserRec
  teams : List Team
  deriving DecidableEq, Repr

/-- `DepartmentService.update_department`.  Returns the post-state and
either the updated department or the raised exception; a raise happens
before any mutation, so the state component is unchanged on error. -/
def update_department (s : DeptState) (deptId : Nat) (upd : DepartmentUpdate)
    (userId : Nat) : DeptState × Except Exc Department :=
  match findDept s.departments deptId with
  | none => (s, .error (.notFound "Department"))
  | some department =>
    if check_permissions s.memberships userId department.organizationId = false then
      (s, .error (.forbidden "You don't have permission to perform this action"))
    else
      let parentRes : Except Exc Unit :=
        match upd.parentDepartmentId with
        | some (some pid) =>
          match findDept s.departments pid with
          | none => .error (.notFound "Department")
          | some parent =>
            if parent.organizationId ≠ department.organizationId then
              .error (.validation "Parent department must belong to the same organization")
            else if validate_no_cycle s.departments deptId (some pid) = false then
              .error (.businessLogic "Cannot create circular reference in department hierarchy")
            else .ok ()
        | _ => .ok ()
      match parentRes with
      | .error e => (s, .error e)
      | .ok _ =>
        let headRes : Except Exc Unit :=
          match upd.departmentHeadId with
          | some (some hid) =>
            if is_member s.memberships hid department.organizationId = false then
              .error (.validation "Department head must be a member of the organization")
            else .ok ()
          | _ => .ok ()
        match headRes with
        | .error e => (s, .error e)
        | .ok _ =>
          let depts := updateFirst (fun d => decide (d.id = deptId))
            (fun d => applyDeptUpdate d upd) s.departments
          ({ s with departments := depts }, .ok (applyDeptUpdate department upd))

/-- `DepartmentService.delete_department`: soft delete guarded by the
active-sub-department check. -/
def delete_department (s : DeptState) (deptId : Nat) (userId : Nat) :
    DeptState × Except Exc Bool :=
  match findDept s.departments deptId with
  | none => (s, .error (.notFound "Department"))
  | some department =>
    if check_permissions s.memberships userId department.organizationId = false then
      (s, .error (.forbidden "You don't have permission to perform this action"))
    else if has_active_sub_departments s.departments deptId then
      (s, .error (.businessLogic "Cannot delete department with active sub-departments"))
    else
      let depts := updateFirst (fun d => decide (d.id = deptId))
        (fun d => { d with isActive := false }) s.departments
      ({ s with departments := depts }, .ok true)

/-- A row of `invitations` (`Invitation` model). -/
structure Invitation where
  organizationId : Nat
  email : String
  role : OrganizationRole
  token : Nat
  status : InvitationStatus
  expiresAt : Nat
  invitedBy : Nat
  deriving DecidableEq, Repr

/-- `Invitation.is_expired`: `datetime.utcnow() > self.expires_at`. -/
def Invitation.is_expired (inv : Invitation) (now : Nat) : Bool :=
  decide (inv.expiresAt < now)

/-- The database state the invitation service reads and writes. -/
structure InvState where
  organizations : List Nat
  invitations : List Invitation
  memberships : List UserOrganization
  users : List UserRec
  deriving DecidableEq, Repr

/-- `UserRepository.get_by_email`: lookup by lowercased email. -/
def get_by_email (users : List UserRec) (email : String) : Option UserRec :=
  users.find? fun u => decide (u.email = email.toLower)

/-- `self.db.query(UserRec).filter(id == user_id).first()`
(`UserRepository.get_by_uuid`). -/
def findUser (users : List UserRec) (i : Nat) : Option UserRec :=
  users.find? fun u => decide (u.id = i)

/-- The invitation lookup in `InvitationService.accept_invitation`:
first row with the given token and `pending` status. -/
def findPendingByToken (invs : List Invitation) (token : Nat) :
    Option Invitation :=
  invs.find? fun inv =>
    decide (inv.token = token ∧ inv.status = InvitationStatus.pending)

/-- `UserOrganizationRepository.create_membership`: insert an active row. -/
def create_membership (ms : List UserOrganization) (userId orgId : Nat)
    (role : OrganizationRole) : List UserOrganization :=
  ms ++ [{ userId := userId, organizationId := orgId, role := role, isActive := true }]

/-- `InvitationService.accept_invitation`.  Returns the post-state together
with the result; note that an expired token both raises and commits the
`expired` status flip. -/
def accept_invitation (st : InvState) (token : Nat) (userId : Nat) (now : Nat) :
    InvState × Except Exc Bool :=
  match findPendingByToken st.invitations token with
  | none => (st, .error (.notFound "Invitation"))
  | some invitation =>
    if invitation.is_expired now then
      let invs := updateFirst
        (fun inv => decide (inv.token = token ∧ inv.status = InvitationStatus.pending))
        (fun inv => { inv with status := .expired }) st.invitations
      ({ st with invitations := invs }, .error (.validation "Invitation has expired"))
    else
      match findUser st.users userId with
      | none => (st, .error (.notFound "User"))
      | some user =>
        if user.email.toLower ≠ invitation.email.toLower then
          (st, .error (.validation "Invitation is for a different email address"))
        else if is_member st.memberships userId invitation.organizationId then
          (st, .error (.validation "You are already a member of this organization"))
        else
          let invs := updateFirst
            (fun inv => decide (inv.token = token ∧ inv.status = InvitationStatus.pending))
            (fun inv => { inv with status := .accepted }) st.invitations
          ({ st with
              memberships := create_membership st.memberships userId
                invitation.organizationId invitation.role
              invitations := invs },
           .ok true)

/-- `UpdateMemberRole` / `BulkInvitationItem` payloads carry a free-form
role string validated by `OrganizationRole(...)`. -/
structure InvItem where
  email : String
  role : String
  deriving DecidableEq, Repr

/-- One error row of a bulk-invitation response (`BulkInvitationError`). -/
structure BulkInvitationError where
  email : String
  error : String
  deriving DecidableEq, Repr

/-- `InvitationService.update_member_role`.  The final membership query has
no `is_active` filter, exactly as in the source. -/
def update_member_role (ms : List UserOrganization) (orgId memberId : Nat)
    (roleStr : String) (reqId : Nat) :
    List UserOrganization × Except Exc OrganizationRole :=
  match get_user_role ms reqId orgId with
  | some OrganizationRole.owner | some OrganizationRole.admin =>
    match get_user_role ms memberId orgId with
    | none => (ms, .error (.notFound "Member"))
    | some memberRole =>
      if memberRole = OrganizationRole.owner then
        (ms, .error (.validation "Cannot modify organization owner role"))
      else
        match OrganizationRole.ofString roleStr.toLower with
        | none => (ms, .error (.validation ("Invalid role: " ++ roleStr)))
        | some newRole =>
          if newRole = OrganizationRole.owner then
            (ms, .error (.validation "Cannot assign owner role"))
          else
            (updateFirst
              (fun m => decide (m.userId = memberId ∧ m.organizationId = orgId))
              (fun m => { m with role := newRole }) ms,
             .ok newRole)
  | _ => (ms, .error (.forbidden "Only owners and admins can update member roles"))

/-- `InvitationService.remove_member` (the best-effort notification email
has no effect on the state). -/
def remove_member (ms : List UserOrganization) (orgId memberId : Nat)
    (reqId : Nat) : List UserOrganization × Except Exc Bool :=
  match get_user_role ms reqId orgId with
  | some OrganizationRole.owner | some OrganizationRole.admin =>
    match get_user_role ms memberId orgId with
    | none => (ms, .error (.notFound "Member"))
    | some memberRole =>
      if memberRole = OrganizationRole.owner then
        (ms, .error (.validation "Cannot remove organization owner"))
      else if memberId = reqId then
        (ms, .error (.validation "Cannot remove yourself from organization"))
      else
        (updateFirst
          (fun m => decide (m.userId = memberId ∧ m.organizationId = orgId))
          (fun m => { m with isActive := false }) ms,
         .ok true)
  | _ => (ms, .error (.forbidden "Only owners and admins can remove members"))

/-- The existing-pending-invitation query of the invitation service:
first row for (organization, lowercased email, `pending`) exists. -/
def pendingInvitationExists (st : InvState) (orgId : Nat)
    (emailLower : String) : Bool :=
  (st.invitations.find? fun inv =>
    decide (inv.organizationId = orgId ∧ inv.email = emailLower ∧
      inv.status = InvitationStatus.pending)).isSome

/-- The per-item validation of the first pass of
`InvitationService.create_bulk_invitations`, given the emails already seen
in this request: duplicate-in-request, then role parse, then
already-member, then pending-invitation checks, in source order. -/
def bulkItemCheck (st : InvState) (orgId : Nat) (seen : List String)
    (item : InvItem) : Except String OrganizationRole :=
  if item.email.toLower ∈ seen then .error "Duplicate email in request"
  else
    match OrganizationRole.ofString item.role.toLower with
    | none => .error ("Invalid role: " ++ item.role)
    | some role =>
      let memberError : Option String :=
        match get_by_email st.users item.email with
        | some existingUser =>
          if is_member st.memberships existingUser.id orgId then
            some "User is already a member of this organization"
          else none
        | none => none
      match memberError with
      | some msg => .error msg
      | none =>
        if pendingInvitationExists st orgId item.email.toLower then
          .error "Pending invitation already exists for this email"
        else .ok role

/-- The first (dry validation) pass of `create_bulk_invitations`: walks the
request items accumulating the `seen_emails` set, and returns the valid
(item, parsed role) pairs and the error rows, each in request order. -/
def bulkValidate (st : InvState) (orgId : Nat) :
    List InvItem → List String →
    List (InvItem × OrganizationRole) × List BulkInvitationError
  | [], _ => ([], [])
  | item :: rest, seen =>
    match bulkItemCheck st orgId seen item with
    | .error msg =>
      let seen' := if item.email.toLower ∈ seen then seen else item.email.toLower :: seen
      let r := bulkValidate st orgId rest seen'
      (r.1, { email := item.email, error := msg } :: r.2)
    | .ok role =>
      let r := bulkValidate st orgId rest (item.email.toLower :: seen)
      ((item, role) :: r.1, r.2)

/-- The `BulkInvitationResponse` payload. -/
structure BulkInvitationResponse where
  created : List Invitation
  errors : List BulkInvitationError
  total : Nat
  successful : Nat
  failed : Nat
  deriving DecidableEq, Repr

/-- `InvitationService.create_bulk_invitations`.  `commitFails` models the
environment: whether the single commit of the second pass raises; on
failure the transaction rolls back and every valid row degrades to an
error.  `tok0` seeds the fresh invitation tokens. -/
def create_bulk_invitations (st : InvState) (orgId : Nat)
    (items : List InvItem) (inviterId : Nat) (now : Nat) (tok0 : Nat)
    (commitFails : Bool) : InvState × Except Exc BulkInvitationResponse :=
  if orgId ∉ st.organizations then (st, .error (.notFound "Organization"))
  else
    match get_user_role st.memberships inviterId orgId with
    | some OrganizationRole.owner | some OrganizationRole.admin =>
      if 50 < items.length then
        (st, .error (.validation "Maximum 50 invitations allowed per request"))
      else
        match findUser st.users inviterId with
        | none => (st, .error (.notFound "User"))
        | some _ =>
          let vr := bulkValidate st orgId items []
          if vr.1.isEmpty then
            (st, .ok { created := [], errors := vr.2, total := items.length,
                       successful := 0, failed := vr.2.length })
          else if commitFails then
            let commitErrors := vr.1.map fun v =>
              ({ email := v.1.email,
                 error := "Failed to create invitation" } : BulkInvitationError)
            (st, .ok { created := [], errors := vr.2 ++ commitErrors,
                       total := items.length, successful := 0,
                       failed := (vr.2 ++ commitErrors).length })
          else
            let created := vr.1.enum.map fun kr =>
              ({ organizationId := orgId, email := kr.2.1.email.toLower,
                 role := kr.2.2, token := tok0 + kr.1, status := .pending,
                 expiresAt := now + 7, invitedBy := inviterId } : Invitation)
            ({ st with invitations := st.invitations ++ created },
             .ok { created := created, errors := vr.2, total := items.length,
                   successful := created.length, failed := vr.2.length })
    | _ => (st, .error (.forbidden "Only owners and admins can invite members"))

/-- `UserService.deactivate_user` composed with
`UserRepository.deactivate_user`: a self-deactivation raises
`ValidationException` before anything happens; otherwise the user's status
becomes `inactive`. -/
def deactivate_user (users : List UserRec) (userId : Nat)
    (currentUserId : Nat) : List UserRec × Except Exc UserRec :=
  if userId = currentUserId then
    (users, .error (.validation "You cannot deactivate your own account"))
  else
    match findUser users userId with
    | none => (users, .error (.notFound "User"))
    | some u =>
      (updateFirst (fun v => decide (v.id = userId))
        (fun v => { v with status := .inactive }) users,
       .ok { u with status := .inactive })

/-- A row of `organizations`, restricted to the fields
`OrganizationService.create_organization` writes. -/
structure Organization where
  id : Nat
  name : String
  slug : String
  taxId : String
  isActive : Bool
  deriving DecidableEq, Repr

/-- The database state the organization service reads and writes. -/
structure OrgState where
  organizations : List Organization
  memberships : List UserOrganization
  deriving DecidableEq, Repr

/-- `OrganizationCreate` payload: `slug` is optional (`none` when the
request supplies no slug). -/
structure OrganizationCreate where
  name : String
  slug : Option String
  taxId : String
  deriving DecidableEq, Repr

/-- `OrganizationRepository.tax_id_exists`. -/
def tax_id_exists (orgs : List Organization) (t : String) : Bool :=
  orgs.any fun o => decide (o.taxId = t)

/-- Split a character list on spaces (helper for the spec-modelled
`generate_slug`). -/
def splitOnSpace : List Char → List (List Char)
  | [] => [[]]
  | c :: rest =>
    let r := splitOnSpace rest
    if c = ' ' then [] :: r
    else
      match r with
      | [] => [[c]]
      | w :: ws => (c :: w) :: ws

/-- Modelled from the spec: `generate_slug` is imported by
`app/modules/organizations/service.py` from `app/shared/utils.py`, but no
definition of it exists anywhere under the repository source; the spec
says the slug is auto-derived from the organization name by lowercasing
and hyphenation, with "Acme Corp" yielding "acme-corp".  We model it as:
split the name on spaces, drop empty fragments, lowercase each word, and
join with hyphens. -/
def generate_slug (name : String) : String :=
  String.mk (List.intercalate ['-']
    (((splitOnSpace name.toList).filter fun w => w ≠ []).map
      (List.map Char.toLower)))

/-- `OrganizationService.create_organization`: tax-id uniqueness check,
slug derivation when the payload's slug is missing (falsy), organization
insert, and the creator's `owner` membership.  `newOrgId` models the
generated primary key. -/
def create_organization (st : OrgState) (d : OrganizationCreate)
    (ownerId : Nat) (newOrgId : Nat) : OrgState × Except Exc Organization :=
  if tax_id_exists st.organizations d.taxId then
    (st, .error (.alreadyExists "Organization"))
  else
    let slug := match d.slug with
      | none => generate_slug d.name
      | some s => if s = "" then generate_slug d.name else s
    let org : Organization :=
      { id := newOrgId, name := d.name, slug := slug, taxId := d.taxId,
        isActive := true }
    ({ organizations := st.organizations ++ [org],
       memberships := create_membership st.memberships ownerId newOrgId .owner },
     .ok org)

/-- A joined row of `users` x `user_organizations` as the stored function
`fn_get_organization_users_json` pages over it; only the sort key matters
for the pagination contract. -/
structure UserRow where
  id : Nat
  createdAt : Nat
  deriving DecidableEq, Repr

/-- The error envelope the stored function returns instead of raising. -/
structure FnError where
  error : String
  code : String
  deriving DecidableEq, Repr

/-- The `pagination` object of the stored function's JSON result, plus the
page itself. -/
structure PageResult where
  data : List UserRow
  count : Nat
  hasMore : Bool
  nextCursor : Option (Nat × Nat)
  deriving DecidableEq, Repr

/-- The row-wise comparison `(u.created_at, u.id) < (v_cursor_ts,
v_cursor_id)` of the stored function. -/
def cursorLt (r : UserRow) (c : Nat × Nat) : Bool :=
  decide (r.createdAt < c.1 ∨ (r.createdAt = c.1 ∧ r.id < c.2))

/-- The cursor clause `p_cursor IS NULL OR (created_at, id) < (ts, id)`. -/
def cursorPred (cursor : Option (Nat × Nat)) (r : UserRow) : Bool :=
  match cursor with
  | none => true
  | some c => cursorLt r c

/-- The `user_page` CTE: rows surviving the cursor predicate, fetched with
`LIMIT p_limit + 1`.  `rows` is the filtered joined table already ordered
`created_at DESC, id DESC`. -/
def user_page (rows : List UserRow) (cursor : Option (Nat × Nat))
    (lim : Nat) : List UserRow :=
  (rows.filter (cursorPred cursor)).take (lim + 1)

/-- The pagination core of `fn_get_organization_users_json`
(`src/alembic/versions/010_update_fn_organization_users_filters.py`):
limit validation, membership check, overfetch of `p_limit + 1` rows, page
truncation to `p_limit`, `hasMore` from the extra row, and `nextCursor`
from the row with `row_num = p_limit`. -/
def fn_get_organization_users_json (rows : List UserRow)
    (memberRole : Option OrganizationRole) (lim : Nat)
    (cursor : Option (Nat × Nat)) : Except FnError PageResult :=
  if ¬(1 ≤ lim ∧ lim ≤ 100) then
    .error { error := "Invalid limit (1-100)", code := "INVALID_LIMIT" }
  else
    match memberRole with
    | none => .error { error := "Access denied", code := "NOT_MEMBER" }
    | some _ =>
      let page := user_page rows cursor lim
      .ok { data := page.take lim,
            count := (page.take lim).length,
            hasMore := decide (lim < page.length),
            nextCursor :=
              if lim < page.length then
                (page.get? (lim - 1)).map fun r => (r.createdAt, r.id)
              else none }

/-- The `limit` bound of the request schema `OrganizationUsersRequest`
(`app/modules/users/schemas.py`): `Field(default=20, ge=1, le=100)`; a
request outside the bound is rejected by pydantic with a 422 validation
error, it is not clamped. -/
def organizationUsersRequest_limit_ok (lim : Int) : Bool :=
  decide (1 ≤ lim ∧ lim ≤ 100)

/-- The update that assigns a department's parent and nothing else. -/
def parentReassign (pid : Nat) : DepartmentUpdate :=
  { parentDepartmentId := some (some pid) }

/-- The user ids holding an active owner-role membership of the given
organization: the "who the owners are" set of claim C9. -/
def ownersOf (ms : List UserOrganization) (orgId : Nat) : List Nat :=
  (ms.filter fun m => decide (m.organizationId = orgId ∧
    m.role = OrganizationRole.owner ∧ m.isActive = true)).map (·.userId)

/-! ### Helper lemmas -/

theorem reaches_elim {depts : List Department} {i j : Nat}
    (h : Reaches depts i j) :
    i = j ∨ ∃ p, parentOf depts i = some p ∧ Reaches depts p j := by
  cases h with
  | refl => exact Or.inl rfl
  | step hp hr => exact Or.inr ⟨_, hp, hr⟩

theorem reaches_iff_of_parent {depts : List Department} {i p j : Nat}
    (hij : i ≠ j) (hp : parentOf depts i = some p) :
    Reaches depts i j ↔ Reaches depts p j := by
  constructor
  · intro h
    rcases reaches_elim h with rfl | ⟨q, hq, hr⟩
    · exact absurd rfl hij
    · rw [hp] at hq
      injection hq with hpq
      rw [hpq]
      exact hr
  · intro h
    exact Reaches.step hp h

theorem not_reaches_of_parent_none {depts : List Department} {i j : Nat}
    (hij : i ≠ j) (hp : parentOf depts i = none) : ¬ Reaches depts i j := by
  intro h
  rcases reaches_elim h with rfl | ⟨q, hq, _⟩
  · exact hij rfl
  · rw [hp] at hq
    exact Option.noConfusion hq

/-- The fuel of `validateNoCycleLoop` cannot run out: each continuing
iteration pushes a fresh id of the table onto `visited`, so under the
acyclicity measure the loop computes exactly non-reachability of
`deptId` from `current`. -/
theorem validateNoCycleLoop_spec (depts : List Department) (m : Nat → Nat)
    (hm : Measured depts m) (deptId : Nat) :
    ∀ (fuel : Nat) (current : Nat) (visited : List Nat),
      visited.Nodup →
      (∀ v ∈ visited, v ∈ depts.map Department.id) →
      (∀ v ∈ visited, m current < m v) →
      depts.length + 1 ≤ fuel + visited.length →
      (validateNoCycleLoop depts deptId current visited fuel = true ↔
        ¬ Reaches depts current deptId) := by
  intro fuel
  induction fuel with
  | zero =>
    intro current visited hnd hsub hlt hbound
    exfalso
    have hle : visited.length ≤ (depts.map Department.id).length :=
      (List.subperm_of_subset hnd fun v hv => hsub v hv).length_le
    rw [List.length_map] at hle
    omega
  | succ fuel ih =>
    intro current visited hnd hsub hlt hbound
    have hcv : current ∉ visited := fun hmem => absurd (hlt current hmem) (lt_irrefl _)
    by_cases hcd : current = deptId
    · have hstep : validateNoCycleLoop depts deptId current visited (fuel + 1) = false := by
        rw [validateNoCycleLoop, if_pos (Or.inr hcd)]
      rw [hstep]
      constructor
      · intro h
        exact absurd h (by simp)
      · intro h
        exact absurd (by rw [hcd]; exact Reaches.refl deptId) h
    · cases hfind : findDept depts current with
      | none =>
        have hstep : validateNoCycleLoop depts deptId current visited (fuel + 1) = true := by
          rw [validateNoCycleLoop, if_neg (by simp [hcv, hcd])]
          simp [hfind]
        have hnone : parentOf depts current = none := by
          simp [parentOf, hfind]
        rw [hstep]
        simp only [true_iff]
        exact not_reaches_of_parent_none hcd hnone
      | some parent =>
        have hpid : parent.id = current := by
          have := List.find?_some hfind
          simpa using this
        have hpmem : parent ∈ depts := List.mem_of_find?_eq_some hfind
        cases hpp : parent.parentDepartmentId with
        | none =>
          have hstep : validateNoCycleLoop depts deptId current visited (fuel + 1) = true := by
            rw [validateNoCycleLoop, if_neg (by simp [hcv, hcd])]
            simp [hfind, hpp]
          have hnone : parentOf depts current = none := by
            simp [parentOf, hfind, hpp]
          rw [hstep]
          simp only [true_iff]
          exact not_reaches_of_parent_none hcd hnone
        | some nxt =>
          have hstep : validateNoCycleLoop depts deptId current visited (fuel + 1)
              = validateNoCycleLoop depts deptId nxt (current :: visited) fuel := by
            rw [validateNoCycleLoop, if_neg (by simp [hcv, hcd])]
            simp [hfind, hpp]
          have hnext : parentOf depts current = some nxt := by
            simp [parentOf, hfind, hpp]
          have hmlt : m nxt < m current := by
            have := hm parent hpmem nxt hpp
            rwa [hpid] at this
          rw [hstep, ih nxt (current :: visited)
            (List.nodup_cons.mpr ⟨hcv, hnd⟩)
            (by
              intro v hv
              rcases List.mem_cons.mp hv with rfl | hv
              · exact List.mem_map.mpr ⟨parent, hpmem, hpid⟩
              · exact hsub v hv)
            (by
              intro v hv
              rcases List.mem_cons.mp hv with rfl | hv
              · exact hmlt
              · exact lt_trans hmlt (hlt v hv))
            (by simp only [List.length_cons]; omega)]
          exact (reaches_iff_of_parent hcd hnext).not.symm

/-- `validate_no_cycle` decides exactly the specification's condition:
the proposed parent is not the department itself and walking the parent
chain from the proposed parent never reaches the department. -/
theorem validate_no_cycle_iff (depts : List Department) (m : Nat → Nat)
    (hm : Measured depts m) (deptId pid : Nat) :
    (validate_no_cycle depts deptId (some pid) = true ↔
      (pid ≠ deptId ∧ ¬ Reaches depts pid deptId)) := by
  by_cases h : deptId = pid
  · subst h
    have hfalse : validate_no_cycle depts deptId (some deptId) = false := by
      simp [validate_no_cycle]
    rw [hfalse]
    constructor
    · intro hb
      exact absurd hb (by simp)
    · intro hb
      exact absurd rfl hb.1
  · have hstep : validate_no_cycle depts deptId (some pid)
        = validateNoCycleLoop depts deptId pid [] (depts.length + 1) := by
      simp [validate_no_cycle, h]
    rw [hstep]
    rw [validateNoCycleLoop_spec depts m hm deptId (depts.length + 1) pid []
      List.nodup_nil (by intro v hv; cases hv) (by intro v hv; cases hv)
      (by simp)]
    constructor
    · intro hn
      exact ⟨fun he => h he.symm, hn⟩
    · intro hn
      exact hn.2

theorem findDept_updateFirst_self (l : List Department) (i : Nat)
    (f : Department → Department) (hf : ∀ d, (f d).id = d.id) :
    findDept (updateFirst (fun d => decide (d.id = i)) f l) i
      = (findDept l i).map f := by
  induction l with
  | nil => rfl
  | cons d l ihl =>
    simp only [findDept, updateFirst] at *
    by_cases h : d.id = i
    · rw [if_pos (by simp [h])]
      rw [List.find?_cons_of_pos _ (by simp [hf, h])]
      rw [List.find?_cons_of_pos _ (by simp [h])]
      simp
    · rw [if_neg (by simp [h])]
      rw [List.find?_cons_of_neg _ (by simp [h])]
      rw [List.find?_cons_of_neg _ (by simp [h])]
      exact ihl

theorem findDept_updateFirst_ne (l : List Department) (i j : Nat)
    (f : Department → Department) (hf : ∀ d, (f d).id = d.id) (hij : j ≠ i) :
    findDept (updateFirst (fun d => decide (d.id = i)) f l) j = findDept l j := by
  induction l with
  | nil => rfl
  | cons d l ihl =>
    simp only [findDept, updateFirst] at *
    by_cases h : d.id = i
    · rw [if_pos (by simp [h])]
      rw [List.find?_cons_of_neg _ (by simp [hf, h]; omega)]
      rw [List.find?_cons_of_neg _ (by simp [h]; omega)]
    · rw [if_neg (by simp [h])]
      by_cases hj : d.id = j
      · rw [List.find?_cons_of_pos _ (by simp [hj])]
        rw [List.find?_cons_of_pos _ (by simp [hj])]
      · rw [List.find?_cons_of_neg _ (by simp [hj])]
        rw [List.find?_cons_of_neg _ (by simp [hj])]
        exact ihl

/-! ### Claim theorems -/

/-- Claim C1: for two departments D and P of the same organization (with
the acyclicity invariant witnessed by a measure, and an authorized
requester), the update assigning D's parent to P succeeds iff P is not D
and walking P's parent chain never reaches D; in every other case it
raises the business-logic error and the state — hence D's parent — is
unchanged; on success D's parent is P. -/
theorem C1_department_reparent (s : DeptState) (m : Nat → Nat)
    (hm : Measured s.departments m) (dId pId requester : Nat)
    (dD dP : Department)
    (hD : findDept s.departments dId = some dD)
    (hP : findDept s.departments pId = some dP)
    (horg : dP.organizationId = dD.organizationId)
    (hperm : check_permissions s.memberships requester dD.organizationId = true) :
    ((∃ d, (update_department s dId (parentReassign pId) requester).2 = Except.ok d) ↔
      (pId ≠ dId ∧ ¬ Reaches s.departments pId dId)) ∧
    (∀ e, (update_department s dId (parentReassign pId) requester).2 = Except.error e →
      (update_department s dId (parentReassign pId) requester).1 = s ∧
        e = Exc.businessLogic "Cannot create circular reference in department hierarchy") ∧
    (∀ d, (update_department s dId (parentReassign pId) requester).2 = Except.ok d →
      findDept (update_department s dId (parentReassign pId) requester).1.departments dId
        = some { dD with parentDepartmentId := some pId }) := by
  have hiff := validate_no_cycle_iff s.departments m hm dId pId
  cases hval : validate_no_cycle s.departments dId (some pId) with
  | false =>
    have hred : update_department s dId (parentReassign pId) requester
        = (s, Except.error (Exc.businessLogic
            "Cannot create circular reference in department hierarchy")) := by
      simp [update_department, hD, hperm, hP, parentReassign, horg, hval]
    rw [hval] at hiff
    refine ⟨?_, ?_, ?_⟩
    · rw [hred]
      constructor
      · intro ⟨d, hd⟩
        exact Except.noConfusion hd
      · intro hcond
        exact absurd (hiff.mpr hcond) (by simp)
    · intro e he
      rw [hred] at he
      injection he with he
      exact ⟨by rw [hred], he.symm⟩
    · intro d hd
      rw [hred] at hd
      exact Except.noConfusion hd
  | true =>
    have hred : update_department s dId (parentReassign pId) requester
        = ({ s with departments := updateFirst (fun d => decide (d.id = dId)) (fun d => applyDeptUpdate d (parentReassign pId)) s.departments },
           Except.ok (applyDeptUpdate dD (parentReassign pId))) := by
      simp [update_department, hD, hperm, hP, parentReassign, horg, hval]
    rw [hval] at hiff
    refine ⟨?_, ?_, ?_⟩
    · rw [hred]
      constructor
      · intro _
        exact hiff.mp rfl
      · intro _
        exact ⟨applyDeptUpdate dD (parentReassign pId), rfl⟩
    · intro e he
      rw [hred] at he
      exact Except.noConfusion he
    · intro d hd
      rw [hred]
      rw [findDept_updateFirst_self s.departments dId
        (fun d => applyDeptUpdate d (parentReassign pId)) (fun d => rfl), hD]
      simp [applyDeptUpdate, parentReassign]

/-- Witness for C1: in a two-department organization where department 2 is
a child of department 1, reassigning department 2's parent to department 1
succeeds. -/
theorem C1_department_reparent_witness :
    ∃ d, (update_department ⟨[⟨1, 10, none, none, "A", none, none, true⟩, ⟨2, 10, some 1, none, "B", none, none, true⟩], [⟨5, 10, OrganizationRole.owner, true⟩], [], []⟩ 2 (parentReassign 1) 5).2 = Except.ok d := by
  refine (C1_department_reparent
    ⟨[⟨1, 10, none, none, "A", none, none, true⟩, ⟨2, 10, some 1, none, "B", none, none, true⟩], [⟨5, 10, OrganizationRole.owner, true⟩], [], []⟩
    (fun n => n) ?_ 2 1 5
    ⟨2, 10, some 1, none, "B", none, none, true⟩
    ⟨1, 10, none, none, "A", none, none, true⟩
    rfl rfl rfl rfl).1.mpr ⟨by decide, ?_⟩
  · intro d hd p hp
    simp only [List.mem_cons, List.not_mem_nil, or_false] at hd
    rcases hd with rfl | rfl
    · exact absurd hp (by simp)
    · have hp1 : p = 1 := by
        injection hp with h
        exact h.symm
      subst hp1
      decide
  · intro h
    rcases reaches_elim h with h1 | ⟨p, hp, _⟩
    · exact absurd h1 (by decide)
    · exact Option.noConfusion ((rfl :
        parentOf [⟨1, 10, none, none, "A", none, none, true⟩, ⟨2, 10, some 1, none, "B", none, none, true⟩] 1 = none).symm.trans hp)

/-- Claim C7: deleting a department that has an active sub-department
fails with the business-logic error (HTTP 400) leaving the state — hence
the department's active flag — unchanged; with no active sub-departments
the delete succeeds and only soft-deletes: `is_active` becomes false and
the row remains retrievable. -/
theorem C7_delete_department (s : DeptState) (dId requester : Nat)
    (dD : Department)
    (hD : findDept s.departments dId = some dD)
    (hperm : check_permissions s.memberships requester dD.organizationId = true) :
    (has_active_sub_departments s.departments dId = true →
      delete_department s dId requester
        = (s, Except.error (Exc.businessLogic "Cannot delete department with active sub-departments")) ∧
      Exc.statusCode (Exc.businessLogic "Cannot delete department with active sub-departments") = 400) ∧
    (has_active_sub_departments s.departments dId = false →
      (delete_department s dId requester).2 = Except.ok true ∧
      findDept (delete_department s dId requester).1.departments dId
        = some { dD with isActive := false }) := by
  constructor
  · intro hactive
    constructor
    · simp [delete_department, hD, hperm, hactive]
    · rfl
  · intro hactive
    have hred : delete_department s dId requester
        = ({ s with departments := updateFirst (fun d => decide (d.id = dId)) (fun d => { d with isActive := false }) s.departments },
           Except.ok true) := by
      simp [delete_department, hD, hperm, hactive]
    constructor
    · rw [hred]
    · rw [hred]
      rw [findDept_updateFirst_self s.departments dId
        (fun d => { d with isActive := false }) (fun d => rfl), hD]
      rfl

/-- Witness for C7: deleting department 1, which has the active child
department 2, returns the business-logic error and leaves the state
unchanged. -/
theorem C7_delete_department_witness :
    delete_department ⟨[⟨1, 10, none, none, "A", none, none, true⟩, ⟨2, 10, some 1, none, "B", none, none, true⟩], [⟨5, 10, OrganizationRole.owner, true⟩], [], []⟩ 1 5
      = (⟨[⟨1, 10, none, none, "A", none, none, true⟩, ⟨2, 10, some 1, none, "B", none, none, true⟩], [⟨5, 10, OrganizationRole.owner, true⟩], [], []⟩,
         Except.error (Exc.businessLogic "Cannot delete department with active sub-departments")) :=
  ((C7_delete_department
    ⟨[⟨1, 10, none, none, "A", none, none, true⟩, ⟨2, 10, some 1, none, "B", none, none, true⟩], [⟨5, 10, OrganizationRole.owner, true⟩], [], []⟩
    1 5 ⟨1, 10, none, none, "A", none, none, true⟩ rfl rfl).1 (by decide)).1

/-- Claim C10: a successful department deletion only flips the target's
`is_active` flag: the target keeps its name, description, parent,
organization, head and budget, other departments are found unchanged, and
the user, team and membership tables are untouched. -/
theorem C10_delete_department_frame (s : DeptState) (dId requester : Nat)
    (h : (delete_department s dId requester).2 = Except.ok true) :
    (delete_department s dId requester).1.users = s.users ∧
    (delete_department s dId requester).1.teams = s.teams ∧
    (delete_department s dId requester).1.memberships = s.memberships ∧
    ∃ dD, findDept s.departments dId = some dD ∧
      findDept (delete_department s dId requester).1.departments dId
        = some { dD with isActive := false } ∧
      ∀ j, j ≠ dId →
        findDept (delete_department s dId requester).1.departments j
          = findDept s.departments j := by
  cases hfind : findDept s.departments dId with
  | none =>
    rw [show delete_department s dId requester = (s, Except.error (Exc.notFound "Department")) from by simp [delete_department, hfind]] at h
    exact Except.noConfusion h
  | some dD =>
    by_cases hperm : check_permissions s.memberships requester dD.organizationId = false
    · rw [show delete_department s dId requester = (s, Except.error (Exc.forbidden "You don't have permission to perform this action")) from by simp [delete_department, hfind, hperm]] at h
      exact Except.noConfusion h
    · cases hactive : has_active_sub_departments s.departments dId with
      | true =>
        rw [show delete_department s dId requester = (s, Except.error (Exc.businessLogic "Cannot delete department with active sub-departments")) from by simp [delete_department, hfind, hperm, hactive]] at h
        exact Except.noConfusion h
      | false =>
        have hred : delete_department s dId requester
            = ({ s with departments := updateFirst (fun d => decide (d.id = dId)) (fun d => { d with isActive := false }) s.departments },
               Except.ok true) := by
          simp [delete_department, hfind, hperm, hactive]
        rw [hred]
        refine ⟨rfl, rfl, rfl, dD, rfl, ?_, ?_⟩
        · rw [findDept_updateFirst_self s.departments dId
            (fun d => { d with isActive := false }) (fun d => rfl), hfind]
          rfl
        · intro j hj
          exact findDept_updateFirst_ne s.departments dId j
            (fun d => { d with isActive := false }) (fun d => rfl) hj

/-- Witness for C10: successfully deleting the leaf department 2 preserves
users, teams, memberships and the other department, and only clears the
target's active flag. -/
theorem C10_delete_department_frame_witness :
    (delete_department ⟨[⟨1, 10, none, none, "A", none, none, true⟩, ⟨2, 10, some 1, none, "B", none, none, true⟩], [⟨5, 10, OrganizationRole.owner, true⟩], [⟨7, "u@x.com", UserStatus.active, some 2⟩], [⟨3, 2, none⟩]⟩ 2 5).1.users
      = [⟨7, "u@x.com", UserStatus.active, some 2⟩] ∧
    (delete_department ⟨[⟨1, 10, none, none, "A", none, none, true⟩, ⟨2, 10, some 1, none, "B", none, none, true⟩], [⟨5, 10, OrganizationRole.owner, true⟩], [⟨7, "u@x.com", UserStatus.active, some 2⟩], [⟨3, 2, none⟩]⟩ 2 5).1.teams
      = [⟨3, 2, none⟩] ∧
    (delete_department ⟨[⟨1, 10, none, none, "A", none, none, true⟩, ⟨2, 10, some 1, none, "B", none, none, true⟩], [⟨5, 10, OrganizationRole.owner, true⟩], [⟨7, "u@x.com", UserStatus.active, some 2⟩], [⟨3, 2, none⟩]⟩ 2 5).1.memberships
      = [⟨5, 10, OrganizationRole.owner, true⟩] ∧
    ∃ dD, findDept [⟨1, 10, none, none, "A", none, none, true⟩, ⟨2, 10, some 1, none, "B", none, none, true⟩] 2 = some dD ∧
      findDept (delete_department ⟨[⟨1, 10, none, none, "A", none, none, true⟩, ⟨2, 10, some 1, none, "B", none, none, true⟩], [⟨5, 10, OrganizationRole.owner, true⟩], [⟨7, "u@x.com", UserStatus.active, some 2⟩], [⟨3, 2, none⟩]⟩ 2 5).1.departments 2
        = some { dD with isActive := false } ∧
      ∀ j, j ≠ 2 →
        findDept (delete_department ⟨[⟨1, 10, none, none, "A", none, none, true⟩, ⟨2, 10, some 1, none, "B", none, none, true⟩], [⟨5, 10, OrganizationRole.owner, true⟩], [⟨7, "u@x.com", UserStatus.active, some 2⟩], [⟨3, 2, none⟩]⟩ 2 5).1.departments j
          = findDept [⟨1, 10, none, none, "A", none, none, true⟩, ⟨2, 10, some 1, none, "B", none, none, true⟩] j :=
  C10_delete_department_frame
    ⟨[⟨1, 10, none, none, "A", none, none, true⟩, ⟨2, 10, some 1, none, "B", none, none, true⟩], [⟨5, 10, OrganizationRole.owner, true⟩], [⟨7, "u@x.com", UserStatus.active, some 2⟩], [⟨3, 2, none⟩]⟩
    2 5 rfl

/-- Helper: for an in-range limit and a member caller the stored function
returns the `ok` envelope built from the overfetched page. -/
theorem fn_users_ok_shape (rows : List UserRow) (role : OrganizationRole)
    (cursor : Option (Nat × Nat)) (L : Nat) (hL : 1 ≤ L ∧ L ≤ 100) :
    fn_get_organization_users_json rows (some role) L cursor
      = Except.ok { data := (user_page rows cursor L).take L,
                    count := ((user_page rows cursor L).take L).length,
                    hasMore := decide (L < (user_page rows cursor L).length),
                    nextCursor := if L < (user_page rows cursor L).length then ((user_page rows cursor L).get? (L - 1)).map fun r => (r.createdAt, r.id) else none } := by
  simp only [fn_get_organization_users_json]
  rw [if_neg (not_not_intro hL)]

/-- Claim C2: for an in-range page size L and a member caller, the stored
function fetches L+1 rows past the cursor, returns at most L items,
reports hasMore exactly when an (L+1)-th filtered row exists, and in that
case the page holds exactly L items and nextCursor is the (created_at, id)
key of the L-th returned row. -/
theorem C2_pagination_contract (rows : List UserRow) (role : OrganizationRole)
    (cursor : Option (Nat × Nat)) (L : Nat) (hL : 1 ≤ L ∧ L ≤ 100) :
    ∃ p, fn_get_organization_users_json rows (some role) L cursor = Except.ok p ∧
      user_page rows cursor L = (rows.filter (cursorPred cursor)).take (L + 1) ∧
      p.data = (user_page rows cursor L).take L ∧
      p.data.length ≤ L ∧
      (p.hasMore = true ↔ L < (rows.filter (cursorPred cursor)).length) ∧
      (p.hasMore = true →
        p.data.length = L ∧
        p.nextCursor = (p.data.get? (L - 1)).map fun r => (r.createdAt, r.id)) := by
  refine ⟨_, fn_users_ok_shape rows role cursor L hL, rfl, rfl, ?_, ?_, ?_⟩
  · simp only [List.length_take]
    omega
  · have hlen : (user_page rows cursor L).length
        = min (L + 1) (rows.filter (cursorPred cursor)).length := by
      simp [user_page, List.length_take]
    simp only [decide_eq_true_eq, hlen]
    omega
  · intro hmore
    simp only [decide_eq_true_eq] at hmore
    have hlen : (user_page rows cursor L).length ≤ L + 1 := by
      simp [user_page, List.length_take]
    constructor
    · simp only [List.length_take]
      omega
    · simp only [if_pos hmore]
      have hget : ((user_page rows cursor L).take L).get? (L - 1)
          = (user_page rows cursor L).get? (L - 1) := by
        apply List.get?_take
        omega
      rw [hget]

/-- Witness for C2 on three rows with limit 2 and no cursor: the page is
the first two rows, hasMore is set, and the next cursor is the second
row's key. -/
theorem C2_pagination_contract_witness :
    ∃ p, fn_get_organization_users_json [⟨3, 30⟩, ⟨2, 20⟩, ⟨1, 10⟩] (some OrganizationRole.admin) 2 none = Except.ok p ∧
      user_page [⟨3, 30⟩, ⟨2, 20⟩, ⟨1, 10⟩] none 2 = (([⟨3, 30⟩, ⟨2, 20⟩, ⟨1, 10⟩] : List UserRow).filter (cursorPred none)).take 3 ∧
      p.data = (user_page [⟨3, 30⟩, ⟨2, 20⟩, ⟨1, 10⟩] none 2).take 2 ∧
      p.data.length ≤ 2 ∧
      (p.hasMore = true ↔ 2 < (([⟨3, 30⟩, ⟨2, 20⟩, ⟨1, 10⟩] : List UserRow).filter (cursorPred none)).length) ∧
      (p.hasMore = true →
        p.data.length = 2 ∧
        p.nextCursor = (p.data.get? 1).map fun r => (r.createdAt, r.id)) :=
  C2_pagination_contract [⟨3, 30⟩, ⟨2, 20⟩, ⟨1, 10⟩] OrganizationRole.admin none 2
    (by decide)

/-- Counterexample for C5: a requested limit of 0 does not yield a
successful clamped page; the stored function returns the INVALID_LIMIT
error envelope and the request schema bound rejects it. -/
theorem C5_counterexample :
    fn_get_organization_users_json [⟨1, 10⟩] (some OrganizationRole.admin) 0 none
      = Except.error { error := "Invalid limit (1-100)", code := "INVALID_LIMIT" } ∧
    organizationUsersRequest_limit_ok 0 = false :=
  ⟨rfl, rfl⟩

/-- Claim C5 (amended): the page size is not clamped but validated against
[1, 100]: an out-of-range limit is rejected (the stored function returns
the INVALID_LIMIT error envelope, and the request schema's bound refuses
it with a 422 validation error), while an in-range limit yields a
successful page of at most limit ≤ 100 items. -/
theorem C5_limit_validation (rows : List UserRow) (role : OrganizationRole)
    (cursor : Option (Nat × Nat)) (L : Nat) :
    (¬(1 ≤ L ∧ L ≤ 100) →
      fn_get_organization_users_json rows (some role) L cursor
        = Except.error { error := "Invalid limit (1-100)", code := "INVALID_LIMIT" }) ∧
    ((1 ≤ L ∧ L ≤ 100) →
      ∃ p, fn_get_organization_users_json rows (some role) L cursor = Except.ok p ∧
        p.data.length ≤ L ∧ L ≤ 100) ∧
    (∀ lim : Int, organizationUsersRequest_limit_ok lim = true ↔ (1 ≤ lim ∧ lim ≤ 100)) := by
  refine ⟨?_, ?_, ?_⟩
  · intro hbad
    simp only [fn_get_organization_users_json, if_pos hbad]
  · intro hL
    refine ⟨_, fn_users_ok_shape rows role cursor L hL, ?_, hL.2⟩
    simp only [List.length_take]
    omega
  · intro lim
    simp [organizationUsersRequest_limit_ok]

/-- Witness for C5 (amended): limit 101 is rejected with the
INVALID_LIMIT error envelope. -/
theorem C5_limit_validation_witness :
    fn_get_organization_users_json [⟨1, 10⟩] (some OrganizationRole.admin) 101 none
      = Except.error { error := "Invalid limit (1-100)", code := "INVALID_LIMIT" } :=
  (C5_limit_validation [⟨1, 10⟩] OrganizationRole.admin none 101).1 (by decide)

/-- Claim C6: the claim says cyclic-hierarchy assignment, removing the
(last) owner and self-deactivation all map to HTTP 400.  The code maps
only `BusinessLogicException` to 400: the cyclic-hierarchy raise does use
it, but `UserService.deactivate_user` raises `ValidationException` (422)
on self-deactivation, as does `InvitationService.remove_member` when the
member is an owner; the repository's own tests expect 400 for
deactivating the last owner.  This theorem evaluates the embedded code at
those failing inputs. -/
theorem C6_error_status_divergence :
    (deactivate_user [⟨1, "a@b.c", UserStatus.active, none⟩] 1 1).2
      = Except.error (Exc.validation "You cannot deactivate your own account") ∧
    Exc.statusCode (Exc.validation "You cannot deactivate your own account") = 422 ∧
    (remove_member [⟨1, 10, OrganizationRole.owner, true⟩, ⟨2, 10, OrganizationRole.admin, true⟩] 10 1 2).2
      = Except.error (Exc.validation "Cannot remove organization owner") ∧
    Exc.statusCode (Exc.validation "Cannot remove organization owner") = 422 ∧
    Exc.statusCode (Exc.businessLogic "Cannot create circular reference in department hierarchy") = 400 :=
  ⟨rfl, rfl, rfl, rfl, rfl⟩

/-- Claim C8: with no slug in the payload, the created organization's
slug is derived from the name by lowercasing and hyphenation
(`generate_slug` modelled from the spec, absent from src), and the
creator immediately holds an owner membership of the new organization;
"Acme Corp" yields "acme-corp". -/
theorem C8_create_organization (st : OrgState) (d : OrganizationCreate)
    (ownerId newOrgId : Nat)
    (htax : tax_id_exists st.organizations d.taxId = false)
    (hslug : d.slug = none)
    (hfresh : ∀ m ∈ st.memberships, m.organizationId ≠ newOrgId) :
    ∃ org, (create_organization st d ownerId newOrgId).2 = Except.ok org ∧
      org.slug = generate_slug d.name ∧
      org.id = newOrgId ∧
      get_user_role (create_organization st d ownerId newOrgId).1.memberships
        ownerId newOrgId = some OrganizationRole.owner ∧
      generate_slug "Acme Corp" = "acme-corp" := by
  have hred : create_organization st d ownerId newOrgId
      = ({ organizations := st.organizations ++ [{ id := newOrgId, name := d.name, slug := generate_slug d.name, taxId := d.taxId, isActive := true }],
           memberships := create_membership st.memberships ownerId newOrgId OrganizationRole.owner },
         Except.ok { id := newOrgId, name := d.name, slug := generate_slug d.name, taxId := d.taxId, isActive := true }) := by
    simp [create_organization, htax, hslug]
  have hnone : st.memberships.find?
      (fun m => decide (m.userId = ownerId ∧ m.organizationId = newOrgId ∧ m.isActive = true)) = none := by
    apply List.find?_eq_none.mpr
    intro m hm
    simp only [decide_eq_true_eq, not_and]
    intro _ hmorg
    exact absurd hmorg (hfresh m hm)
  refine ⟨_, by rw [hred], rfl, rfl, ?_, by decide⟩
  rw [hred]
  simp only [create_membership, get_user_role, List.find?_append, hnone, Option.none_or]
  rw [List.find?_cons_of_pos _ (by simp)]
  rfl

/-- Witness for C8: creating "Acme Corp" with no slug in an empty state
derives slug "acme-corp" and makes user 5 the owner of organization 42. -/
theorem C8_create_organization_witness :
    ∃ org, (create_organization ⟨[], []⟩ ⟨"Acme Corp", none, "T-100"⟩ 5 42).2 = Except.ok org ∧
      org.slug = generate_slug "Acme Corp" ∧
      org.id = 42 ∧
      get_user_role (create_organization ⟨[], []⟩ ⟨"Acme Corp", none, "T-100"⟩ 5 42).1.memberships 5 42
        = some OrganizationRole.owner ∧
      generate_slug "Acme Corp" = "acme-corp" :=
  C8_create_organization ⟨[], []⟩ ⟨"Acme Corp", none, "T-100"⟩ 5 42 rfl rfl
    (by intro m hm; cases hm)

/-- Helper: if the first membership row for (user, organization) is
active, `get_user_role` returns exactly its role. -/
theorem get_user_role_of_first_row (uid oid : Nat) (m0 : UserOrganization)
    (hact : m0.isActive = true) :
    ∀ ms : List UserOrganization,
      ms.find? (fun m => decide (m.userId = uid ∧ m.organizationId = oid)) = some m0 →
      get_user_role ms uid oid = some m0.role := by
  intro ms
  induction ms with
  | nil =>
    intro h
    simp at h
  | cons m ms ih =>
    intro hfind
    by_cases h : m.userId = uid ∧ m.organizationId = oid
    · rw [List.find?_cons_of_pos _ (by simp [h.1, h.2])] at hfind
      injection hfind with h0
      subst h0
      simp only [get_user_role]
      rw [List.find?_cons_of_pos _ (by simp [h.1, h.2, hact])]
      rfl
    · rw [List.find?_cons_of_neg _ (by simpa using h)] at hfind
      have := ih hfind
      simp only [get_user_role] at this ⊢
      rw [List.find?_cons_of_neg _ (by
        simp only [decide_eq_true_eq, not_and]
        intro h1 h2 _
        exact h ⟨h1, h2⟩)]
      exact this

/-- Helper: `ownersOf` over a cons. -/
theorem ownersOf_cons (m : UserOrganization) (ms : List UserOrganization)
    (org : Nat) :
    ownersOf (m :: ms) org
      = if m.organizationId = org ∧ m.role = OrganizationRole.owner ∧ m.isActive = true
        then m.userId :: ownersOf ms org else ownersOf ms org := by
  simp only [ownersOf, List.filter_cons]
  by_cases h : m.organizationId = org ∧ m.role = OrganizationRole.owner ∧ m.isActive = true
  · rw [if_pos (by simpa using h), if_pos h]
    rfl
  · rw [if_neg (by simpa using h), if_neg h]

/-- Helper: `updateFirst` leaves the active-owner list of every
organization unchanged when the modified row's active-owner status and
user id are preserved. -/
theorem ownersOf_updateFirst (p : UserOrganization → Bool)
    (f : UserOrganization → UserOrganization) (org : Nat) :
    ∀ ms : List UserOrganization,
      (∀ m0, ms.find? p = some m0 →
        (((f m0).organizationId = org ∧ (f m0).role = OrganizationRole.owner ∧ (f m0).isActive = true) ↔
          (m0.organizationId = org ∧ m0.role = OrganizationRole.owner ∧ m0.isActive = true)) ∧
        (f m0).userId = m0.userId) →
      ownersOf (updateFirst p f ms) org = ownersOf ms org := by
  intro ms
  induction ms with
  | nil =>
    intro _
    rfl
  | cons m ms ih =>
    intro hcond
    by_cases h : p m = true
    · have hc := hcond m (by rw [List.find?_cons_of_pos _ h])
      simp only [updateFirst, if_pos h]
      rw [ownersOf_cons, ownersOf_cons]
      by_cases howner : m.organizationId = org ∧ m.role = OrganizationRole.owner ∧ m.isActive = true
      · rw [if_pos (hc.1.mpr howner), if_pos howner, hc.2]
      · rw [if_neg (fun hfm => howner (hc.1.mp hfm)), if_neg howner]
    · have hcond' : ∀ m0, ms.find? p = some m0 →
          (((f m0).organizationId = org ∧ (f m0).role = OrganizationRole.owner ∧ (f m0).isActive = true) ↔
            (m0.organizationId = org ∧ m0.role = OrganizationRole.owner ∧ m0.isActive = true)) ∧
          (f m0).userId = m0.userId := by
        intro m0 hm0
        refine hcond m0 ?_
        rw [List.find?_cons_of_neg _ (by simpa using h)]
        exact hm0
      simp only [updateFirst, if_neg h]
      rw [ownersOf_cons, ownersOf_cons, ih hcond']

/-- Helper: the membership-row rewrite performed by a successful
`update_member_role` (assigning a non-owner role to a non-owner member)
preserves the owner set of every organization. -/
theorem ownersOf_update_member_inner (ms : List UserOrganization)
    (orgId memberId org' : Nat) (newRole : OrganizationRole)
    (hnew : newRole ≠ OrganizationRole.owner)
    (memberRole : OrganizationRole)
    (hmem : get_user_role ms memberId orgId = some memberRole)
    (hmo : memberRole ≠ OrganizationRole.owner) :
    ownersOf (updateFirst
      (fun m => decide (m.userId = memberId ∧ m.organizationId = orgId))
      (fun m => { m with role := newRole }) ms) org' = ownersOf ms org' := by
  apply ownersOf_updateFirst
  intro m0 hfind
  refine ⟨iff_of_false ?_ ?_, rfl⟩
  · intro hL
    exact hnew hL.2.1
  · intro hR
    have hrole := get_user_role_of_first_row memberId orgId m0 hR.2.2 ms hfind
    rw [hmem] at hrole
    injection hrole with hrole
    exact hmo (hrole.trans hR.2.1)

/-- Helper: the membership-row deactivation performed by a successful
`remove_member` (removing a non-owner member) preserves the owner set of
every organization. -/
theorem ownersOf_remove_member_inner (ms : List UserOrganization)
    (orgId memberId org' : Nat) (memberRole : OrganizationRole)
    (hmem : get_user_role ms memberId orgId = some memberRole)
    (hmo : memberRole ≠ OrganizationRole.owner) :
    ownersOf (updateFirst
      (fun m => decide (m.userId = memberId ∧ m.organizationId = orgId))
      (fun m => { m with isActive := false }) ms) org' = ownersOf ms org' := by
  apply ownersOf_updateFirst
  intro m0 hfind
  refine ⟨iff_of_false ?_ ?_, rfl⟩
  · intro hL
    exact Bool.noConfusion hL.2.2
  · intro hR
    have hrole := get_user_role_of_first_row memberId orgId m0 hR.2.2 ms hfind
    rw [hmem] at hrole
    injection hrole with hrole
    exact hmo (hrole.trans hR.2.1)

/-- Claim C9: the set of users holding an active owner membership of any
organization is invariant under `update_member_role` (which refuses to
touch an owner and to assign the owner role) and `remove_member` (which
refuses to remove an owner), whatever the inputs. -/
theorem C9_owner_set_invariant (ms : List UserOrganization)
    (orgId memberId reqId : Nat) (roleStr : String) (org' : Nat) :
    ownersOf (update_member_role ms orgId memberId roleStr reqId).1 org'
      = ownersOf ms org' ∧
    ownersOf (remove_member ms orgId memberId reqId).1 org' = ownersOf ms org' := by
  constructor
  · cases hreq : get_user_role ms reqId orgId with
    | none => simp [update_member_role, hreq]
    | some r =>
      cases r with
      | manager => simp [update_member_role, hreq]
      | employee => simp [update_member_role, hreq]
      | owner =>
        cases hmem : get_user_role ms memberId orgId with
        | none => simp [update_member_role, hreq, hmem]
        | some memberRole =>
          by_cases hmo : memberRole = OrganizationRole.owner
          · simp [update_member_role, hreq, hmem, hmo]
          · cases hparse : OrganizationRole.ofString roleStr.toLower with
            | none => simp [update_member_role, hreq, hmem, hmo, hparse]
            | some newRole =>
              by_cases hno : newRole = OrganizationRole.owner
              · simp [update_member_role, hreq, hmem, hmo, hparse, hno]
              · have hred : (update_member_role ms orgId memberId roleStr reqId).1
                    = updateFirst (fun m => decide (m.userId = memberId ∧ m.organizationId = orgId)) (fun m => { m with role := newRole }) ms := by
                  simp [update_member_role, hreq, hmem, hmo, hparse, hno]
                rw [hred]
                exact ownersOf_update_member_inner ms orgId memberId org' newRole hno memberRole hmem hmo
      | admin =>
        cases hmem : get_user_role ms memberId orgId with
        | none => simp [update_member_role, hreq, hmem]
        | some memberRole =>
          by_cases hmo : memberRole = OrganizationRole.owner
          · simp [update_member_role, hreq, hmem, hmo]
          · cases hparse : OrganizationRole.ofString roleStr.toLower with
            | none => simp [update_member_role, hreq, hmem, hmo, hparse]
            | some newRole =>
              by_cases hno : newRole = OrganizationRole.owner
              · simp [update_member_role, hreq, hmem, hmo, hparse, hno]
              · have hred : (update_member_role ms orgId memberId roleStr reqId).1
                    = updateFirst (fun m => decide (m.userId = memberId ∧ m.organizationId = orgId)) (fun m => { m with role := newRole }) ms := by
                  simp [update_member_role, hreq, hmem, hmo, hparse, hno]
                rw [hred]
                exact ownersOf_update_member_inner ms orgId memberId org' newRole hno memberRole hmem hmo
  · cases hreq : get_user_role ms reqId orgId with
    | none => simp [remove_member, hreq]
    | some r =>
      cases r with
      | manager => simp [remove_member, hreq]
      | employee => simp [remove_member, hreq]
      | owner =>
        cases hmem : get_user_role ms memberId orgId with
        | none => simp [remove_member, hreq, hmem]
        | some memberRole =>
          by_cases hmo : memberRole = OrganizationRole.owner
          · simp [remove_member, hreq, hmem, hmo]
          · by_cases hself : memberId = reqId
            · simp [remove_member, hreq, hmem, hmo, hself]
            · have hred : (remove_member ms orgId memberId reqId).1
                  = updateFirst (fun m => decide (m.userId = memberId ∧ m.organizationId = orgId)) (fun m => { m with isActive := false }) ms := by
                simp [remove_member, hreq, hmem, hmo, hself]
              rw [hred]
              exact ownersOf_remove_member_inner ms orgId memberId org' memberRole hmem hmo
      | admin =>
        cases hmem : get_user_role ms memberId orgId with
        | none => simp [remove_member, hreq, hmem]
        | some memberRole =>
          by_cases hmo : memberRole = OrganizationRole.owner
          · simp [remove_member, hreq, hmem, hmo]
          · by_cases hself : memberId = reqId
            · simp [remove_member, hreq, hmem, hmo, hself]
            · have hred : (remove_member ms orgId memberId reqId).1
                  = updateFirst (fun m => decide (m.userId = memberId ∧ m.organizationId = orgId)) (fun m => { m with isActive := false }) ms := by
                simp [remove_member, hreq, hmem, hmo, hself]
              rw [hred]
              exact ownersOf_remove_member_inner ms orgId memberId org' memberRole hmem hmo

/-- Helper: the image of the row found by `find?` lies in the updated
list. -/
theorem mem_updateFirst_of_find? {α : Type} (p : α → Bool) (f : α → α) :
    ∀ (l : List α) (a : α), l.find? p = some a → f a ∈ updateFirst p f l := by
  intro l
  induction l with
  | nil =>
    intro a h
    simp at h
  | cons x xs ih =>
    intro a h
    by_cases hx : p x = true
    · rw [List.find?_cons_of_pos _ hx] at h
      injection h with h
      subst h
      simp [updateFirst, hx]
    · rw [List.find?_cons_of_neg _ hx] at h
      simp only [updateFirst, if_neg hx]
      exact List.mem_cons_of_mem x (ih a h)

/-- Claim C4: accepting token t as user u succeeds exactly when t resolves
to a pending non-expired invitation whose invited email equals u's email
case-insensitively and u is not yet a member of its organization; then
the membership is created with the invited role and the invitation
becomes accepted.  On failure no membership is created; a missing or
non-pending token yields not-found, while expiry, email mismatch and
existing membership yield validation errors. -/
theorem C4_accept_invitation (st : InvState) (token userId now : Nat)
    (u : UserRec) (hu : findUser st.users userId = some u) :
    ((accept_invitation st token userId now).2 = Except.ok true ↔
      (∃ inv, findPendingByToken st.invitations token = some inv ∧
        inv.is_expired now = false ∧
        u.email.toLower = inv.email.toLower ∧
        is_member st.memberships userId inv.organizationId = false)) ∧
    (∀ e, (accept_invitation st token userId now).2 = Except.error e →
      (accept_invitation st token userId now).1.memberships = st.memberships ∧
      (findPendingByToken st.invitations token = none → e = Exc.notFound "Invitation") ∧
      (findPendingByToken st.invitations token ≠ none → ∃ msg, e = Exc.validation msg)) ∧
    ((accept_invitation st token userId now).2 = Except.ok true →
      ∃ inv, findPendingByToken st.invitations token = some inv ∧
        (accept_invitation st token userId now).1.memberships
          = create_membership st.memberships userId inv.organizationId inv.role ∧
        { inv with status := InvitationStatus.accepted }
          ∈ (accept_invitation st token userId now).1.invitations) := by
  cases hfind : findPendingByToken st.invitations token with
  | none =>
    have hred : accept_invitation st token userId now
        = (st, Except.error (Exc.notFound "Invitation")) := by
      simp [accept_invitation, hfind]
    refine ⟨?_, ?_, ?_⟩
    · rw [hred]
      constructor
      · intro h
        exact Except.noConfusion h
      · intro ⟨inv, hinv, _⟩
        exact Option.noConfusion hinv
    · intro e he
      rw [hred] at he
      injection he with he
      exact ⟨by rw [hred], fun _ => he.symm, fun hne => absurd rfl hne⟩
    · intro h
      rw [hred] at h
      exact Except.noConfusion h
  | some inv =>
    cases hexp : inv.is_expired now with
    | true =>
      have hred : accept_invitation st token userId now
          = ({ st with invitations := updateFirst (fun i => decide (i.token = token ∧ i.status = InvitationStatus.pending)) (fun i => { i with status := InvitationStatus.expired }) st.invitations },
             Except.error (Exc.validation "Invitation has expired")) := by
        simp [accept_invitation, hfind, hexp]
      refine ⟨?_, ?_, ?_⟩
      · rw [hred]
        constructor
        · intro h
          exact Except.noConfusion h
        · intro ⟨inv', hinv', hexp', _⟩
          injection hinv' with hinv'
          subst hinv'
          rw [hexp] at hexp'
          exact Bool.noConfusion hexp'
      · intro e he
        rw [hred] at he
        injection he with he
        refine ⟨by rw [hred], ?_, ?_⟩
        · intro hn
          exact Option.noConfusion hn
        · intro _
          exact ⟨_, he.symm⟩
      · intro h
        rw [hred] at h
        exact Except.noConfusion h
    | false =>
      by_cases hmail : u.email.toLower = inv.email.toLower
      · cases hmem : is_member st.memberships userId inv.organizationId with
        | true =>
          have hred : accept_invitation st token userId now
              = (st, Except.error (Exc.validation "You are already a member of this organization")) := by
            simp [accept_invitation, hfind, hexp, hu, hmail, hmem]
          refine ⟨?_, ?_, ?_⟩
          · rw [hred]
            constructor
            · intro h
              exact Except.noConfusion h
            · intro ⟨inv', hinv', _, _, hmem'⟩
              injection hinv' with hinv'
              subst hinv'
              rw [hmem] at hmem'
              exact Bool.noConfusion hmem'
          · intro e he
            rw [hred] at he
            injection he with he
            refine ⟨by rw [hred], ?_, ?_⟩
            · intro hn
              exact Option.noConfusion hn
            · intro _
              exact ⟨_, he.symm⟩
          · intro h
            rw [hred] at h
            exact Except.noConfusion h
        | false =>
          have hred : accept_invitation st token userId now
              = ({ st with memberships := create_membership st.memberships userId inv.organizationId inv.role, invitations := updateFirst (fun i => decide (i.token = token ∧ i.status = InvitationStatus.pending)) (fun i => { i with status := InvitationStatus.accepted }) st.invitations },
                 Except.ok true) := by
            simp [accept_invitation, hfind, hexp, hu, hmail, hmem]
          refine ⟨?_, ?_, ?_⟩
          · rw [hred]
            constructor
            · intro _
              exact ⟨inv, rfl, hexp, hmail, hmem⟩
            · intro _
              rfl
          · intro e he
            rw [hred] at he
            exact Except.noConfusion he
          · intro _
            refine ⟨inv, rfl, by rw [hred], ?_⟩
            rw [hred]
            exact mem_updateFirst_of_find? _ _ st.invitations inv hfind
      · have hred : accept_invitation st token userId now
            = (st, Except.error (Exc.validation "Invitation is for a different email address")) := by
          simp [accept_invitation, hfind, hexp, hu, hmail]
        refine ⟨?_, ?_, ?_⟩
        · rw [hred]
          constructor
          · intro h
            exact Except.noConfusion h
          · intro ⟨inv', hinv', _, hmail', _⟩
            injection hinv' with hinv'
            subst hinv'
            exact absurd hmail' hmail
        · intro e he
          rw [hred] at he
          injection he with he
          refine ⟨by rw [hred], ?_, ?_⟩
          · intro hn
            exact Option.noConfusion hn
          · intro _
            exact ⟨_, he.symm⟩
        · intro h
          rw [hred] at h
          exact Except.noConfusion h

/-- Witness for C4: user 1 accepts pending token 77 invitation for their
email before expiry and becomes a member. -/
theorem C4_accept_invitation_witness :
    ((accept_invitation ⟨[10], [⟨10, "a@b.c", OrganizationRole.employee, 77, InvitationStatus.pending, 100, 2⟩], [], [⟨1, "a@b.c", UserStatus.active, none⟩]⟩ 77 1 50).2 = Except.ok true ↔
      (∃ inv, findPendingByToken [⟨10, "a@b.c", OrganizationRole.employee, 77, InvitationStatus.pending, 100, 2⟩] 77 = some inv ∧
        inv.is_expired 50 = false ∧
        ("a@b.c" : String).toLower = inv.email.toLower ∧
        is_member [] 1 inv.organizationId = false)) ∧
    (∀ e, (accept_invitation ⟨[10], [⟨10, "a@b.c", OrganizationRole.employee, 77, InvitationStatus.pending, 100, 2⟩], [], [⟨1, "a@b.c", UserStatus.active, none⟩]⟩ 77 1 50).2 = Except.error e →
      (accept_invitation ⟨[10], [⟨10, "a@b.c", OrganizationRole.employee, 77, InvitationStatus.pending, 100, 2⟩], [], [⟨1, "a@b.c", UserStatus.active, none⟩]⟩ 77 1 50).1.memberships = [] ∧
      (findPendingByToken [⟨10, "a@b.c", OrganizationRole.employee, 77, InvitationStatus.pending, 100, 2⟩] 77 = none → e = Exc.notFound "Invitation") ∧
      (findPendingByToken [⟨10, "a@b.c", OrganizationRole.employee, 77, InvitationStatus.pending, 100, 2⟩] 77 ≠ none → ∃ msg, e = Exc.validation msg)) ∧
    ((accept_invitation ⟨[10], [⟨10, "a@b.c", OrganizationRole.employee, 77, InvitationStatus.pending, 100, 2⟩], [], [⟨1, "a@b.c", UserStatus.active, none⟩]⟩ 77 1 50).2 = Except.ok true →
      ∃ inv, findPendingByToken [⟨10, "a@b.c", OrganizationRole.employee, 77, InvitationStatus.pending, 100, 2⟩] 77 = some inv ∧
        (accept_invitation ⟨[10], [⟨10, "a@b.c", OrganizationRole.employee, 77, InvitationStatus.pending, 100, 2⟩], [], [⟨1, "a@b.c", UserStatus.active, none⟩]⟩ 77 1 50).1.memberships
          = create_membership [] 1 inv.organizationId inv.role ∧
        { inv with status := InvitationStatus.accepted }
          ∈ (accept_invitation ⟨[10], [⟨10, "a@b.c", OrganizationRole.employee, 77, InvitationStatus.pending, 100, 2⟩], [], [⟨1, "a@b.c", UserStatus.active, none⟩]⟩ 77 1 50).1.invitations) :=
  C4_accept_invitation
    ⟨[10], [⟨10, "a@b.c", OrganizationRole.employee, 77, InvitationStatus.pending, 100, 2⟩], [], [⟨1, "a@b.c", UserStatus.active, none⟩]⟩
    77 1 50 ⟨1, "a@b.c", UserStatus.active, none⟩ rfl

/-- Helper: every request item lands in exactly one of the two result
lists of the bulk validation pass. -/
theorem bulkValidate_length (st : InvState) (orgId : Nat) :
    ∀ (items : List InvItem) (seen : List String),
      (bulkValidate st orgId items seen).1.length
        + (bulkValidate st orgId items seen).2.length = items.length := by
  intro items
  induction items with
  | nil =>
    intro seen
    rfl
  | cons item rest ih =>
    intro seen
    simp only [bulkValidate]
    cases h : bulkItemCheck st orgId seen item with
    | error msg =>
      simp only [List.length_cons]
      have hrec := ih (if item.email.toLower ∈ seen then seen else item.email.toLower :: seen)
      omega
    | ok role =>
      simp only [List.length_cons]
      have hrec := ih (item.email.toLower :: seen)
      omega

/-- Claim C3: for an authorized bulk-invitation request of N ≤ 50 items of
which K fail validation (duplicate-in-request, invalid role, existing
member, existing pending invitation), the operation creates exactly N−K
invitations and reports exactly K errors; if the commit phase fails,
nothing is created, the state is unchanged, and every previously valid
row degrades to an error so that N errors are reported. -/
theorem C3_bulk_invitations (st : InvState) (orgId inviterId now tok0 : Nat)
    (items : List InvItem) (commitFails : Bool) (u0 : UserRec)
    (horg : orgId ∈ st.organizations)
    (hrole : get_user_role st.memberships inviterId orgId = some OrganizationRole.owner ∨
      get_user_role st.memberships inviterId orgId = some OrganizationRole.admin)
    (hsize : items.length ≤ 50)
    (hinv : findUser st.users inviterId = some u0) :
    ∃ resp, (create_bulk_invitations st orgId items inviterId now tok0 commitFails).2
        = Except.ok resp ∧
      resp.total = items.length ∧
      (commitFails = false →
        resp.successful = items.length - (bulkValidate st orgId items []).2.length ∧
        resp.failed = (bulkValidate st orgId items []).2.length ∧
        (create_bulk_invitations st orgId items inviterId now tok0 commitFails).1.invitations.length
          = st.invitations.length + resp.successful) ∧
      (commitFails = true →
        resp.successful = 0 ∧
        resp.failed = items.length ∧
        (create_bulk_invitations st orgId items inviterId now tok0 commitFails).1 = st) := by
  have hsum := bulkValidate_length st orgId items []
  have hnn : ¬ orgId ∉ st.organizations := not_not_intro horg
  have h50 : ¬ (50 < items.length) := by omega
  rcases hrole with hr | hr <;>
  cases hempty : (bulkValidate st orgId items []).1.isEmpty with
  | true =>
    have hK : (bulkValidate st orgId items []).1.length = 0 := by
      rw [List.isEmpty_iff.mp hempty]
      rfl
    have hred : create_bulk_invitations st orgId items inviterId now tok0 commitFails
        = (st, Except.ok { created := [], errors := (bulkValidate st orgId items []).2, total := items.length, successful := 0, failed := (bulkValidate st orgId items []).2.length }) := by
      simp [create_bulk_invitations, hnn, hr, hinv, h50, hempty]
    refine ⟨_, by rw [hred], rfl, ?_, ?_⟩
    · intro _
      refine ⟨?_, rfl, ?_⟩
      · show 0 = items.length - (bulkValidate st orgId items []).2.length
        omega
      · rw [hred]
        simp
    · intro _
      refine ⟨rfl, ?_, by rw [hred]⟩
      show (bulkValidate st orgId items []).2.length = items.length
      omega
  | false =>
    cases hcf : commitFails with
    | true =>
      have hred : create_bulk_invitations st orgId items inviterId now tok0 true
          = (st, Except.ok { created := [], errors := (bulkValidate st orgId items []).2 ++ (bulkValidate st orgId items []).1.map (fun v => ({ email := v.1.email, error := "Failed to create invitation" } : BulkInvitationError)), total := items.length, successful := 0, failed := ((bulkValidate st orgId items []).2 ++ (bulkValidate st orgId items []).1.map (fun v => ({ email := v.1.email, error := "Failed to create invitation" } : BulkInvitationError))).length }) := by
        simp [create_bulk_invitations, hnn, hr, hinv, h50, hempty]
      refine ⟨_, by rw [hred], rfl, ?_, ?_⟩
      · intro h
        exact Bool.noConfusion h
      · intro _
        refine ⟨rfl, ?_, by rw [hred]⟩
        simp only [List.length_append, List.length_map]
        omega
    | false =>
      have hred : create_bulk_invitations st orgId items inviterId now tok0 false
          = ({ st with invitations := st.invitations ++ (bulkValidate st orgId items []).1.enum.map (fun kr => ({ organizationId := orgId, email := kr.2.1.email.toLower, role := kr.2.2, token := tok0 + kr.1, status := .pending, expiresAt := now + 7, invitedBy := inviterId } : Invitation)) },
             Except.ok { created := (bulkValidate st orgId items []).1.enum.map (fun kr => ({ organizationId := orgId, email := kr.2.1.email.toLower, role := kr.2.2, token := tok0 + kr.1, status := .pending, expiresAt := now + 7, invitedBy := inviterId } : Invitation)), errors := (bulkValidate st orgId items []).2, total := items.length, successful := ((bulkValidate st orgId items []).1.enum.map (fun kr => ({ organizationId := orgId, email := kr.2.1.email.toLower, role := kr.2.2, token := tok0 + kr.1, status := .pending, expiresAt := now + 7, invitedBy := inviterId } : Invitation))).length, failed := (bulkValidate st orgId items []).2.length }) := by
        simp [create_bulk_invitations, hnn, hr, hinv, h50, hempty]
      refine ⟨_, by rw [hred], rfl, ?_, ?_⟩
      · intro _
        refine ⟨?_, rfl, ?_⟩
        · simp only [List.length_map, List.enum_length]
          omega
        · rw [hred]
          simp only [List.length_append]
      · intro h
        exact Bool.noConfusion h

/-- Witness for C3: a two-item request in which the second item repeats
the first email yields one created invitation and one error. -/
theorem C3_bulk_invitations_witness :
    ∃ resp, (create_bulk_invitations ⟨[10], [], [⟨9, 10, OrganizationRole.owner, true⟩], [⟨9, "boss@x.com", UserStatus.active, none⟩]⟩ 10 [⟨"new@x.com", "employee"⟩, ⟨"new@x.com", "manager"⟩] 9 100 500 false).2
        = Except.ok resp ∧
      resp.total = ([⟨"new@x.com", "employee"⟩, ⟨"new@x.com", "manager"⟩] : List InvItem).length ∧
      (false = false →
        resp.successful = ([⟨"new@x.com", "employee"⟩, ⟨"new@x.com", "manager"⟩] : List InvItem).length - (bulkValidate ⟨[10], [], [⟨9, 10, OrganizationRole.owner, true⟩], [⟨9, "boss@x.com", UserStatus.active, none⟩]⟩ 10 [⟨"new@x.com", "employee"⟩, ⟨"new@x.com", "manager"⟩] []).2.length ∧
        resp.failed = (bulkValidate ⟨[10], [], [⟨9, 10, OrganizationRole.owner, true⟩], [⟨9, "boss@x.com", UserStatus.active, none⟩]⟩ 10 [⟨"new@x.com", "employee"⟩, ⟨"new@x.com", "manager"⟩] []).2.length ∧
        (create_bulk_invitations ⟨[10], [], [⟨9, 10, OrganizationRole.owner, true⟩], [⟨9, "boss@x.com", UserStatus.active, none⟩]⟩ 10 [⟨"new@x.com", "employee"⟩, ⟨"new@x.com", "manager"⟩] 9 100 500 false).1.invitations.length
          = ([] : List Invitation).length + resp.successful) ∧
      (false = true →
        resp.successful = 0 ∧
        resp.failed = ([⟨"new@x.com", "employee"⟩, ⟨"new@x.com", "manager"⟩] : List InvItem).length ∧
        (create_bulk_invitations ⟨[10], [], [⟨9, 10, OrganizationRole.owner, true⟩], [⟨9, "boss@x.com", UserStatus.active, none⟩]⟩ 10 [⟨"new@x.com", "employee"⟩, ⟨"new@x.com", "manager"⟩] 9 100 500 false).1
          = ⟨[10], [], [⟨9, 10, OrganizationRole.owner, true⟩], [⟨9, "boss@x.com", UserStatus.active, none⟩]⟩) :=
  C3_bulk_invitations
    ⟨[10], [], [⟨9, 10, OrganizationRole.owner, true⟩], [⟨9, "boss@x.com", UserStatus.active, none⟩]⟩
    10 9 100 500 [⟨"new@x.com", "employee"⟩, ⟨"new@x.com", "manager"⟩] false
    ⟨9, "boss@x.com", UserStatus.active, none⟩
    (by decide) (Or.inl rfl) (by decide) rfl

end EvoTrack
